import Mathlib

/-!
Verification development for the alpha-hub prototype (src/prototype/hub.py,
src/prototype/failover.py, src/prototype/pool.py).

Python byte strings are modelled as Lean String values whose characters are
code points 0 to 255; a packet is such a string.  Machine words in the MD4
digest are Nat values reduced modulo 4294967296 at every step.  Fallible
Python code (raising exceptions) is modelled with an Option String error
component carrying the exception name.
-/

set_option autoImplicit false

/-- Logging severity of the Python logging module calls used by the code. -/
inductive LogLevel where
  | debug
  | info
  | warning
  | error
  deriving DecidableEq, Repr

/-- One emitted log record: severity plus the formatted message. -/
abbrev LogRec := LogLevel × String

/-! ## Python string primitives

The handlers use str.split(sep), str.split(sep, 1), slicing, and str.strip.
They are modelled over the character list of the string.
-/

/-- Split a character list at every occurrence of c, keeping empty pieces,
like Python str.split(c). -/
def splitCharList (c : Char) : List Char → List (List Char)
  | [] => [[]]
  | x :: xs =>
    match splitCharList c xs with
    | [] => [[]]
    | ys :: rest => if x = c then [] :: ys :: rest else (x :: ys) :: rest

/-- Python s.split(c) on strings. -/
def pySplit (c : Char) (s : String) : List String :=
  (splitCharList c s.data).map String.mk

/-- Split at the first occurrence of c, like Python s.split(c, 1); none when
c does not occur, in which case tuple unpacking of the result raises. -/
def splitOnceList (c : Char) : List Char → Option (List Char × List Char)
  | [] => none
  | x :: xs =>
    if x = c then some ([], xs)
    else (splitOnceList c xs).map (fun p => (x :: p.1, p.2))

/-- Python md4tok, rest = s.split(c, 1): some (before, after) at the first c. -/
def pySplitOnce (c : Char) (s : String) : Option (String × String) :=
  (splitOnceList c s.data).map (fun p => (String.mk p.1, String.mk p.2))

/-- Python s[0:n] prefix slice. -/
def strTake (n : Nat) (s : String) : String :=
  String.mk (s.data.take n)

/-- Python s[n:] suffix slice. -/
def strDrop (n : Nat) (s : String) : String :=
  String.mk (s.data.drop n)

/-- Whitespace characters removed by Python str.strip(). -/
def pyIsSpace (c : Char) : Bool :=
  c = ' ' || c = '\n' || c = '\t' || c = '\r' || c = Char.ofNat 11 || c = Char.ofNat 12

/-- Python s.strip(): drop whitespace from both ends. -/
def pyStrip (s : String) : String :=
  String.mk (((s.data.dropWhile pyIsSpace).reverse.dropWhile pyIsSpace).reverse)

/-- Elements at even positions, like the Python slice data[0::2]. -/
def evenSlice {α : Type} : List α → List α
  | [] => []
  | [x] => [x]
  | x :: _ :: xs => x :: evenSlice xs

/-- Elements at odd positions, like the Python slice data[1::2]. -/
def oddSlice {α : Type} : List α → List α
  | [] => []
  | [_] => []
  | _ :: y :: xs => y :: oddSlice xs

/-! ## Python dict semantics

dict(zip(keys, values)) inserts the pairs left to right; inserting an
existing key overwrites its value in place, so the last occurrence wins.
-/

/-- Insert one binding into a Python dict modelled as an ordered
association list: overwrite in place if the key exists, else append. -/
def pyDictInsert (d : List (String × String)) (k v : String) : List (String × String) :=
  if d.any (fun p => p.1 = k) then
    d.map (fun p => if p.1 = k then (k, v) else p)
  else
    d ++ [(k, v)]

/-- Python dict built from a pair list, left to right. -/
def pyDict (pairs : List (String × String)) : List (String × String) :=
  pairs.foldl (fun d p => pyDictInsert d p.1 p.2) []

/-- Lookup d[k]: first binding with the key (a Python dict holds each key
at most once). -/
def dictGet (d : List (String × String)) (k : String) : Option String :=
  (d.find? (fun p => p.1 = k)).map (fun p => p.2)

/-! ## MD4 (RFC 1320), the digest behind hashlib HASH.new with name md4

Words are Nat values kept below 4294967296.
-/

/-- Rotate a 32-bit word left by s bits (0 < s < 32, x < 2 to the 32). -/
def rotl32 (x s : Nat) : Nat :=
  (x * 2 ^ s) % 4294967296 + x / 2 ^ (32 - s)

/-- Round 1 mixing function F. -/
def mdF (x y z : Nat) : Nat := (x &&& y) ||| ((x ^^^ 0xffffffff) &&& z)

/-- Round 2 mixing function G. -/
def mdG (x y z : Nat) : Nat := (x &&& y) ||| (x &&& z) ||| (y &&& z)

/-- Round 3 mixing function H. -/
def mdH (x y z : Nat) : Nat := x ^^^ y ^^^ z

/-- Running MD4 register file. -/
structure MD4State where
  a : Nat
  b : Nat
  c : Nat
  d : Nat
  deriving DecidableEq, Repr

/-- Message word index and left-rotation amount for each step of round 1. -/
def round1Sched : List (Nat × Nat) :=
  [(0, 3), (1, 7), (2, 11), (3, 19), (4, 3), (5, 7), (6, 11), (7, 19),
   (8, 3), (9, 7), (10, 11), (11, 19), (12, 3), (13, 7), (14, 11), (15, 19)]

/-- Message word index and left-rotation amount for each step of round 2. -/
def round2Sched : List (Nat × Nat) :=
  [(0, 3), (4, 5), (8, 9), (12, 13), (1, 3), (5, 5), (9, 9), (13, 13),
   (2, 3), (6, 5), (10, 9), (14, 13), (3, 3), (7, 5), (11, 9), (15, 13)]

/-- Message word index and left-rotation amount for each step of round 3. -/
def round3Sched : List (Nat × Nat) :=
  [(0, 3), (8, 9), (4, 11), (12, 15), (2, 3), (10, 9), (6, 11), (14, 15),
   (1, 3), (9, 9), (5, 11), (13, 15), (3, 3), (11, 9), (7, 11), (15, 15)]

/-- One MD4 round: fold the sixteen steps of the schedule over the register
file.  Each step rewrites one register; rotating the file keeps the step
uniform (after four steps the registers are back in their named slots). -/
def md4Round (f : Nat → Nat → Nat → Nat) (addc : Nat) (x : List Nat)
    (sched : List (Nat × Nat)) (st : MD4State) : MD4State :=
  sched.foldl
    (fun st p =>
      let t := (st.a + f st.b st.c st.d + x.getD p.1 0 + addc) % 4294967296
      ⟨st.d, rotl32 t p.2, st.b, st.c⟩)
    st

/-- Process one 16-word block. -/
def md4Block (st : MD4State) (x : List Nat) : MD4State :=
  let s1 := md4Round mdF 0 x round1Sched st
  let s2 := md4Round mdG 0x5a827999 x round2Sched s1
  let s3 := md4Round mdH 0x6ed9eba1 x round3Sched s2
  ⟨(st.a + s3.a) % 4294967296, (st.b + s3.b) % 4294967296,
   (st.c + s3.c) % 4294967296, (st.d + s3.d) % 4294967296⟩

/-- Serialize a 64-bit value little-endian into 8 bytes. -/
def le64 (v : Nat) : List Nat :=
  [v % 256, v / 2 ^ 8 % 256, v / 2 ^ 16 % 256, v / 2 ^ 24 % 256,
   v / 2 ^ 32 % 256, v / 2 ^ 40 % 256, v / 2 ^ 48 % 256, v / 2 ^ 56 % 256]

/-- MD4 padding: a 0x80 byte, zeros up to 56 mod 64, then the bit length. -/
def md4Pad (msg : List Nat) : List Nat :=
  let n := msg.length
  let z := (120 - (n + 1) % 64) % 64
  msg ++ [128] ++ List.replicate z 0 ++ le64 (8 * n % 2 ^ 64)

/-- Little-endian 4-byte groups to 32-bit words. -/
def bytesToWords : List Nat → List Nat
  | b0 :: b1 :: b2 :: b3 :: rest =>
    (b0 + 256 * b1 + 65536 * b2 + 16777216 * b3) :: bytesToWords rest
  | _ => []

/-- Absorb the word stream into the state one word at a time, compressing
every time the buffer reaches a full 16-word block.  The padded input is
always a whole number of blocks, so the buffer is empty at the end. -/
def md4Absorb (st : MD4State) (buf : List Nat) : List Nat → MD4State
  | [] => st
  | w :: ws =>
    let buf2 := buf ++ [w]
    if buf2.length = 16 then md4Absorb (md4Block st buf2) [] ws
    else md4Absorb st buf2 ws

/-- Fold the compression function over consecutive 16-word blocks. -/
def md4Main (st : MD4State) (ws : List Nat) : MD4State :=
  md4Absorb st [] ws

/-- Serialize a 32-bit word little-endian into 4 bytes. -/
def wordLE (w : Nat) : List Nat :=
  [w % 256, w / 256 % 256, w / 65536 % 256, w / 16777216 % 256]

/-- The 16-byte MD4 digest of a byte list. -/
def md4Bytes (msg : List Nat) : List Nat :=
  let st := md4Main ⟨0x67452301, 0xefcdab89, 0x98badcfe, 0x10325476⟩
    (bytesToWords (md4Pad msg))
  wordLE st.a ++ wordLE st.b ++ wordLE st.c ++ wordLE st.d

/-- Lower-case hex digit for a nibble. -/
def hexDigitChar (n : Nat) : Char :=
  if n < 10 then Char.ofNat (48 + n) else Char.ofNat (87 + n)

/-- Lower-case hex characters of a byte list, high nibble first. -/
def hexOfBytes : List Nat → List Char
  | [] => []
  | b :: bs => hexDigitChar (b / 16 % 16) :: hexDigitChar (b % 16) :: hexOfBytes bs

/-- Bytes of a Python byte string (characters are code points 0 to 255). -/
def strBytes (s : String) : List Nat :=
  s.data.map Char.toNat

/-- Python HASH.new with name md4 applied to a byte string, then hexdigest:
32 lower-case hex characters. -/
def md4hex (s : String) : String :=
  String.mk (hexOfBytes (md4Bytes (strBytes s)))

/-! ## The worker pool (src/prototype/pool.py)

A task is a callable with arguments; running it either returns or raises.
The thread-local storage handed to the callable is the state sigma.  The
introspectable flag records whether inspect.getargspec succeeds on the
callable; that call sits outside the try block of the private run-task
method, so its failure is not caught.
-/

/-- One queued task: the identity of func (its printed name), whether
inspect.getargspec accepts it, and the effect of calling it on the
thread-local storage: logs, the storage afterwards, and the exception it
raises, if any. -/
structure WTask (σ : Type) where
  name : String
  introspectable : Bool
  run : σ → List LogRec × σ × Option String

/-- Message of the pool log written when a task raises. -/
def poolCatchMsg (exc fname : String) : String :=
  "exception " ++ exc ++ " during " ++ fname ++ " ignored by thread pool"

/-- Private run-task method of a worker: getargspec outside the try block,
then the call under a try that catches Exception, logs it and returns.  The
final component is what propagates out of the method. -/
def runTask {σ : Type} (t : WTask σ) (st : σ) : List LogRec × σ × Option String :=
  if t.introspectable then
    match t.run st with
    | (logs, st2, none) => (logs, st2, none)
    | (logs, st2, some exc) =>
      (logs ++ [(LogLevel.error, poolCatchMsg exc t.name)], st2, none)
  else
    ([], st, some "TypeError")

/-- Worker main loop over a queue prefix: run each task in order; if the
run-task method itself raises (getargspec failure), the thread dies and the
rest of the queue is left unprocessed (third component). -/
def runWorker {σ : Type} (st : σ) : List (WTask σ) → List LogRec × σ × List (WTask σ)
  | [] => ([], st, [])
  | t :: ts =>
    match runTask t st with
    | (logs, st2, none) =>
      let r := runWorker st2 ts
      (logs ++ r.1, r.2.1, r.2.2)
    | (logs, st2, some _) => (logs, st2, ts)

/-- The pool object: the bound of the task queue, the submission timeout in
seconds, and the queued tasks. -/
structure ThreadPool (τ : Type) where
  max_tasks : Nat
  timeout : Nat
  queue : List τ

/-- Default worker count of ThreadPool. -/
def poolDefaultNumThreads : Nat := 4

/-- Default queue bound max_tasks of ThreadPool. -/
def poolDefaultMaxTasks : Nat := 16

/-- Default submission timeout of ThreadPool, in seconds. -/
def poolDefaultTimeout : Nat := 32

/-- ThreadPool.add: Queue.put with block set and the configured timeout.
With no consumer freeing a slot during the wait, the put succeeds at once
if the queue is below its bound and raises Full after timeout seconds
otherwise.  The task is the value put on the queue. -/
def ThreadPool.add {τ : Type} (p : ThreadPool τ) (t : τ) : Except String (ThreadPool τ) :=
  if p.queue.length < p.max_tasks then
    Except.ok { p with queue := p.queue ++ [t] }
  else
    Except.error "Full"

/-- ThreadPool construction: the asserted preconditions of the constructor,
which then creates a queue with bound max_tasks and remembers the timeout. -/
def mkThreadPool (τ : Type) (num_threads max_tasks timeout : Nat) :
    Except String (ThreadPool τ) :=
  if 0 < num_threads ∧ 0 < max_tasks ∧ 0 < timeout then
    Except.ok ⟨max_tasks, timeout, []⟩
  else
    Except.error "AssertionError"

/-! ## The hub record store (src/prototype/hub.py)

Rows of the Players and Gossips tables.  The columns first and last (and
count for Gossips) are filled by triggers in hub.sql, which is not under
src; their behaviour is modelled from the spec: on insert
first-seen = last-seen = now and counter = 1, on update last-seen = now
and the counter is incremented.  Timestamps are abstract Nat clock values.
-/

/-- Row of the Players table. -/
structure PlayerRow where
  name : String
  ip : String
  guid : String
  server : String
  port : Nat
  first : Nat
  last : Nat
  deriving DecidableEq, Repr

/-- Row of the Gossips table; port comes from splitting a host:port string
and is stored as text, origin is the relaying peer as host:port text. -/
structure GossipRow where
  name : String
  ip : String
  guid : String
  server : String
  port : String
  origin : String
  first : Nat
  last : Nat
  cnt : Nat
  deriving DecidableEq, Repr

/-- Natural-key match used by the SELECT and the UPDATE WHERE clause of
write_player: all five identity columns, guid included. -/
def PlayerRow.keyMatch (r : PlayerRow) (name ip guid server : String) (port : Nat) : Bool :=
  r.name = name && r.ip = ip && r.guid = guid && r.server = server && r.port = port

/-- Natural-key match of write_gossip: the five columns plus origin. -/
def GossipRow.keyMatch (r : GossipRow) (name ip guid server port origin : String) : Bool :=
  r.name = name && r.ip = ip && r.guid = guid && r.server = server &&
  r.port = port && r.origin = origin

namespace Hub

/-- The write_player function: SELECT by the natural key; on no hit INSERT
the identity columns (triggers modelled from the spec fill
first = last = now); on a hit UPDATE guid on every matching row (the
trigger modelled from the spec sets last = now).  Returns the log records
and the table after commit. -/
def write_player (db : List PlayerRow) (name ip guid server : String)
    (port : Nat) (now : Nat) : List LogRec × List PlayerRow :=
  let logs := [(LogLevel.info,
    "recording " ++ name ++ " from ip " ++ ip ++ " with guid " ++ guid ++
    " playing on " ++ server ++ ":" ++ toString port)]
  if db.any (fun r => r.keyMatch name ip guid server port) then
    (logs, db.map (fun r =>
      if r.keyMatch name ip guid server port then
        { r with guid := guid, last := now }
      else r))
  else
    (logs, db ++ [⟨name, ip, guid, server, port, now, now⟩])

/-- The write_gossip function: as write_player but on the Gossips table
with origin in the key; the update trigger modelled from the spec sets
last = now and increments count, the insert starts the count at 1. -/
def write_gossip (db : List GossipRow) (name ip guid server port origin : String)
    (now : Nat) : List LogRec × List GossipRow :=
  let logs := [(LogLevel.info,
    "gossip from " ++ origin ++ ": recording " ++ name ++ " from ip " ++ ip ++
    " with guid " ++ guid ++ " playing on " ++ server ++ ":" ++ port)]
  if db.any (fun r => r.keyMatch name ip guid server port origin) then
    (logs, db.map (fun r =>
      if r.keyMatch name ip guid server port origin then
        { r with guid := guid, last := now, cnt := r.cnt + 1 }
      else r))
  else
    (logs, db ++ [⟨name, ip, guid, server, port, origin, now, now, 1⟩])

/-- The parse_userinfo function: split on the backslash, drop the piece
before the leading delimiter, assert an even count (an AssertionError
raises out of the handler), and build the Python dict from the
key and value slices. -/
def parse_userinfo (userinfo : String) : Except String (List (String × String)) :=
  let data := (pySplit '\\' userinfo).drop 1
  if data.length % 2 = 0 then
    Except.ok (pyDict ((evenSlice data).zip (oddSlice data)))
  else
    Except.error "AssertionError"

/-- Four 0xff bytes: the connectionless-datagram marker tested by
handle_userinfo. -/
def MARKER : String :=
  String.mk [Char.ofNat 255, Char.ofNat 255, Char.ofNat 255, Char.ofNat 255]

/-- The echo_tell function: build the gossip payload once from the parsed
userinfo dict, then for each tell peer authenticate it with that peer
secret and send.  tell is the list of peer address and secret pairs (the
code reads the secret from config of the peer name of the connected
socket).  Transport failures only warn, so the sent packets are returned;
a missing dict key raises KeyError. -/
def echo_tell (H : String → String) (tell : List (String × String))
    (host : String) (port : Nat) (var : List (String × String)) :
    List LogRec × List String × Option String :=
  let lg0 : LogRec := (LogLevel.debug,
    "echoing packet from " ++ host ++ ":" ++ toString port ++ "...")
  match dictGet var "name", dictGet var "ip", dictGet var "cl_guid" with
  | some name, some ip, some guid =>
    let payload := "gossip player\n\\server\\" ++ host ++ ":" ++ toString port ++
      "\\name\\" ++ name ++ "\\ip\\" ++ ip ++ "\\guid\\" ++ guid
    let step := tell.map (fun pr =>
      (((LogLevel.debug, "...to tell " ++ pr.1) : LogRec),
       H (pr.2 ++ "\n" ++ payload) ++ "\n" ++ payload))
    (lg0 :: step.map Prod.fst, step.map Prod.snd, none)
  | _, _, _ => ([lg0], [], some "KeyError")

/-- The handle_userinfo function, parametric in the keyed digest H (the
code fixes H to the md4 hexdigest; md4hex below instantiates it).  secret
is the entry of the sending server in the config.  The state is the
Players table together with the packets sent to tell peers; the last
component is the exception propagating out of the handler, if any. -/
def handle_userinfoH (H : String → String) (secret : String)
    (tell : List (String × String)) (db : List PlayerRow) (host : String)
    (port : Nat) (data : String) (now : Nat) :
    List LogRec × (List PlayerRow × List String) × Option String :=
  let header := strTake 4 data
  let rest := strDrop 4 data
  if header = MARKER then
    match pySplitOnce '\n' rest with
    | none => ([], (db, []), some "ValueError")
    | some (tok, rest2) =>
      if tok.length = 32 then
        let checksum := H (secret ++ "\n" ++ rest2)
        if tok = checksum then
          match pySplitOnce '\n' rest2 with
          | none => ([], (db, []), some "ValueError")
          | some (kind, rest3) =>
            if kind = "userinfo" then
              match parse_userinfo rest3 with
              | Except.error e => ([], (db, []), some e)
              | Except.ok var =>
                match dictGet var "name", dictGet var "ip", dictGet var "cl_guid" with
                | some name, some ip, some guid =>
                  let w := write_player db name ip guid host port now
                  if 0 < tell.length then
                    let e := echo_tell H tell host port var
                    (w.1 ++ e.1, (w.2, e.2.1), e.2.2)
                  else
                    (w.1, (w.2, []), none)
                | _, _, _ => ([], (db, []), some "KeyError")
            else
              ([(LogLevel.debug, "not a userinfo packet")], (db, []), none)
        else
          ([(LogLevel.debug, "invalid checksum (secrets probably don\x27t match)")],
           (db, []), none)
      else
        ([(LogLevel.debug, "invalid md4 length")], (db, []), none)
  else
    ([(LogLevel.debug, "invalid packet header")], (db, []), none)

/-- The handle_gossip function, parametric in the keyed digest H; secret
is the entry of the sending peer in the listen config. -/
def handle_gossipH (H : String → String) (secret : String)
    (db : List GossipRow) (host : String) (port : Nat) (data : String)
    (now : Nat) : List LogRec × List GossipRow × Option String :=
  match pySplitOnce '\n' data with
  | none => ([], db, some "ValueError")
  | some (tok, rest) =>
    if tok.length = 32 then
      if tok = H (secret ++ "\n" ++ rest) then
        match pySplitOnce '\n' rest with
        | none => ([], db, some "ValueError")
        | some (kind, rest2) =>
          if kind = "gossip player" then
            match parse_userinfo rest2 with
            | Except.error e => ([], db, some e)
            | Except.ok var =>
              let origin := host ++ ":" ++ toString port
              match dictGet var "server" with
              | none => ([], db, some "KeyError")
              | some sv =>
                match pySplit ':' sv with
                | [h2, p2] =>
                  match dictGet var "name", dictGet var "ip", dictGet var "guid" with
                  | some name, some ip, some guid =>
                    let w := write_gossip db name ip guid h2 p2 origin now
                    (w.1, w.2, none)
                  | _, _, _ => ([], db, some "KeyError")
                | _ => ([], db, some "ValueError")
          else
            ([(LogLevel.debug, "not a gossip player packet")], db, none)
      else
        ([(LogLevel.debug, "invalid checksum (secrets probably don\x27t match)")],
         db, none)
    else
      ([(LogLevel.debug, "invalid md4 length")], db, none)

end Hub

/-! ## Peer directory resolution (resolve_config in hub.py and failover.py)

The DNS lookup S.gethostbyname is the environment: a function from the
configured host identifier to its numeric address, with none modelling a
raised gaierror.  A config section is the ordered list of its entries,
each a host identifier with its port and secret.
-/

/-- Section entry: host identifier, port, secret. -/
abbrev CfgEntry := String × Nat × String

namespace Hub

/-- Loop of the hub resolve_config with the accumulated resolved mapping:
the gaierror of a failed lookup is caught, logged via L.exception (error
severity) and the identifier itself is kept as the address; a duplicate
address in the section trips an assert, which is fatal at startup. -/
def resolveLoop (dns : String → Option String) (acc : List CfgEntry) :
    List CfgEntry → List LogRec × Except String (List CfgEntry)
  | [] => ([], Except.ok acc)
  | (server, v) :: rest =>
    match dns server with
    | none =>
      let lg : LogRec := (LogLevel.error,
        "failed to resolve " ++ server ++ " because of gaierror")
      if acc.any (fun p => p.1 = server) then
        ([lg], Except.error "AssertionError")
      else
        let r := resolveLoop dns (acc ++ [(server, v)]) rest
        (lg :: r.1, r.2)
    | some ip =>
      if ip = server then
        if acc.any (fun p => p.1 = server) then
          ([], Except.error "AssertionError")
        else
          resolveLoop dns (acc ++ [(server, v)]) rest
      else
        let lg : LogRec := (LogLevel.info, server ++ " resolved to " ++ ip)
        if acc.any (fun p => p.1 = ip) then
          ([lg], Except.error "AssertionError")
        else
          let r := resolveLoop dns (acc ++ [(ip, v)]) rest
          (lg :: r.1, r.2)

/-- The hub resolve_config: resolve every entry of a section. -/
def resolve_config (dns : String → Option String) (sect : List CfgEntry) :
    List LogRec × Except String (List CfgEntry) :=
  resolveLoop dns [] sect

end Hub

namespace Failover

/-- Loop of the failover resolve_config: identical to the hub loop except
that the gethostbyname call has no try block, so a gaierror propagates and
aborts startup. -/
def resolveLoop (dns : String → Option String) (acc : List CfgEntry) :
    List CfgEntry → List LogRec × Except String (List CfgEntry)
  | [] => ([], Except.ok acc)
  | (server, v) :: rest =>
    match dns server with
    | none => ([], Except.error "gaierror")
    | some ip =>
      if ip = server then
        if acc.any (fun p => p.1 = server) then
          ([], Except.error "AssertionError")
        else
          resolveLoop dns (acc ++ [(server, v)]) rest
      else
        let lg : LogRec := (LogLevel.info, server ++ " resolved to " ++ ip)
        if acc.any (fun p => p.1 = ip) then
          ([lg], Except.error "AssertionError")
        else
          let r := resolveLoop dns (acc ++ [(ip, v)]) rest
          (lg :: r.1, r.2)

/-- The failover resolve_config: resolve every entry of a section, with no
handler around the lookup. -/
def resolve_config (dns : String → Option String) (sect : List CfgEntry) :
    List LogRec × Except String (List CfgEntry) :=
  resolveLoop dns [] sect

end Failover

/-! ## The failover outbox (src/prototype/failover.py) -/

/-- Row of the failover table.  The rowid is assigned by the store;
modelled from the spec: failover.sql is not under src, §3 gives the id as
monotonic and store-assigned and a store-filled timestamp column. -/
structure FRow where
  rowid : Nat
  server : String
  port : Nat
  packet : String
  time : String
  deriving DecidableEq, Repr

/-- A value in a Python result row: the SELECT of get_db_entries yields
string literals, while genuine columns would yield integers or text. -/
inductive PyVal where
  | int (n : Int)
  | str (s : String)
  deriving DecidableEq, Repr

/-- Python percent-i formatting of one value: requires a number and raises
TypeError on a string. -/
def pyFmtInt : PyVal → Except String String
  | PyVal.int n => Except.ok (toString n)
  | PyVal.str _ => Except.error "TypeError"

/-- Python percent-s formatting of one value. -/
def pyToStr : PyVal → String
  | PyVal.int n => toString n
  | PyVal.str s => s

/-- SQLite INTEGER affinity conversion of a TEXT operand compared against
an integer column: the numeric value when the whole text is a decimal
number, else no conversion and the comparison never matches (restricted to
the unsigned decimal forms that occur here). -/
def sqliteTextInt (s : String) : Option Nat :=
  if s.data ≠ [] ∧ s.data.all (fun c => c.isDigit) then
    some (s.data.foldl (fun a c => a * 10 + (c.toNat - 48)) 0)
  else
    none

namespace Failover

/-- Next store-assigned rowid.  Modelled from the spec: failover.sql is
not under src; ids are monotonic and assigned by the store. -/
def nextRowid (db : List FRow) : Nat :=
  (db.map FRow.rowid).foldr max 0 + 1

/-- The write_packet function: INSERT the sender, port and raw packet into
the failover table and commit; the store assigns the rowid and timestamp. -/
def write_packet (db : List FRow) (server : String) (port : Nat)
    (userinfo : String) (time : String) : List LogRec × List FRow :=
  ([(LogLevel.info,
     "recording Packet from " ++ server ++ ":" ++ toString port ++
     " containing: " ++ userinfo)],
   db ++ [⟨nextRowid db, server, port, userinfo, time⟩])

/-- The get_db_entries function.  The SELECT list quotes the column names
as string literals, so the store returns one row of five constant strings
per table row instead of the column values. -/
def get_db_entries (db : List FRow) : List (List PyVal) :=
  db.map (fun _ =>
    [PyVal.str "rowid", PyVal.str "server", PyVal.str "port",
     PyVal.str "packet", PyVal.str "time"])

/-- The del_db_entry function: conn.execute of the parametrized DELETE
with the bare rowid string as the parameter argument.  The sqlite3 driver
treats a plain string as a sequence of one-character strings, so the
binding succeeds only when the string has exactly one character; any other
length raises ProgrammingError (incorrect number of bindings) and deletes
nothing.  A bound character is TEXT and is compared with the integer rowid
under INTEGER affinity. -/
def del_db_entry (db : List FRow) (rowid : String) : List FRow × Option String :=
  if rowid.length = 1 then
    match sqliteTextInt rowid with
    | some n => (db.filter (fun r => r.rowid ≠ n), none)
    | none => (db, none)
  else
    (db, some "ProgrammingError")

/-- The handle_hub function, parametric in the keyed digest: checksum and
kind checks as in the hub handlers, then del_db_entry on the stripped
payload, which carries the acknowledged rowid. -/
def handle_hubH (H : String → String) (secret : String) (db : List FRow)
    (data : String) : List LogRec × List FRow × Option String :=
  match pySplitOnce '\n' data with
  | none => ([], db, some "ValueError")
  | some (tok, rest) =>
    if tok.length = 32 then
      if tok = H (secret ++ "\n" ++ rest) then
        match pySplitOnce '\n' rest with
        | none => ([], db, some "ValueError")
        | some (kind, rest2) =>
          if kind = "got failover player" then
            let r := del_db_entry db (pyStrip rest2)
            ([], r.1, r.2)
          else
            ([(LogLevel.debug, "not a gossip player packet")], db, none)
      else
        ([(LogLevel.debug, "invalid checksum (secrets probably don\x27t match)")],
         db, none)
    else
      ([(LogLevel.debug, "invalid md4 length")], db, none)

/-- The echo_to_hubs function: format the pending entry into a failover
player payload (percent-i on the rowid), then authenticate and send it to
every hub.  Called during the flush with the literal strings produced by
get_db_entries. -/
def echo_to_hubs (H : String → String) (hubs : List (String × String))
    (rowid : PyVal) (host : String) (packet : PyVal × PyVal) :
    List LogRec × List String × Option String :=
  let lg0 : LogRec := (LogLevel.debug,
    "Sending Database Userinfo packet from " ++ host ++ " to hubs ...")
  match pyFmtInt rowid with
  | Except.error e => ([lg0], [], some e)
  | Except.ok rid =>
    let payload := "failover player\n\\rowid\\" ++ rid ++ "\\server\\" ++ host ++
      "\\time\\" ++ pyToStr packet.2 ++ "\n" ++ pyToStr packet.1
    let step := hubs.map (fun pr =>
      (((LogLevel.debug, "...to hub " ++ pr.1) : LogRec),
       H (pr.2 ++ "\n" ++ payload) ++ "\n" ++ payload))
    (lg0 :: step.map Prod.fst, step.map Prod.snd, none)

/-- Loop body of the flush branch of run: for each result row of
get_db_entries, format source server and port with percent-i and echo the
entry to the hubs.  An exception stops the loop and propagates into run
itself (the flush runs on the dispatch thread, not in a worker). -/
def flushLoop (H : String → String) (hubs : List (String × String)) :
    List (List PyVal) → List LogRec × List String × Option String
  | [] => ([], [], none)
  | ent :: rest =>
    match pyFmtInt (ent.getD 1 (PyVal.str "")) with
    | Except.error e => ([], [], some e)
    | Except.ok a =>
      match pyFmtInt (ent.getD 2 (PyVal.str "")) with
      | Except.error e => ([], [], some e)
      | Except.ok b =>
        match echo_to_hubs H hubs (ent.getD 0 (PyVal.str "")) (a ++ ":" ++ b)
            (ent.getD 3 (PyVal.str ""), ent.getD 4 (PyVal.str "")) with
        | (lgs, sent, none) =>
          let r := flushLoop H hubs rest
          (lgs ++ r.1, sent ++ r.2.1, r.2.2)
        | (lgs, sent, some e) => (lgs, sent, some e)

/-- One outbox flush over the whole failover table. -/
def flush_outbox (H : String → String) (hubs : List (String × String))
    (db : List FRow) : List LogRec × List String × Option String :=
  flushLoop H hubs (get_db_entries db)

end Failover

/-! ## Packet dispatch and codec instantiation -/

/-- Lookup of a sender address in a config section (the Python in-dict test
followed by indexing), returning its port and secret. -/
def lookupSec (l : List CfgEntry) (host : String) : Option (Nat × String) :=
  (l.find? (fun p => p.1 = host)).map (fun p => p.2)

/-- The authenticate operation of the packet codec: the md4 hexdigest of
secret, newline, body — exactly what echo_tell and echo_to_hubs compute
for each outgoing packet. -/
def authenticate (secret body : String) : String :=
  md4hex (secret ++ "\n" ++ body)

/-- The verify operation of the packet codec: the check every receiving
handler performs on the transmitted token — the exact 32-character length
test, then comparison with the recomputed digest. -/
def verify (secret tok body : String) : Bool :=
  tok.length = 32 && tok = authenticate secret body

namespace Hub

/-- Resolved hub configuration sections used by handle_packet. -/
structure HubConfig where
  servers : List CfgEntry
  listen : List CfgEntry
  tell : List (String × String)

/-- Thread-local state of a hub worker: its view of the store plus the
packets pushed out to tell peers. -/
structure HubSt where
  players : List PlayerRow
  gossips : List GossipRow
  sent : List String
  deriving DecidableEq, Repr

/-- The handle_packet function of hub.py, parametric in the keyed digest:
classify the sender against the servers and listen sections and run the
matching handler; unknown senders are logged and dropped. -/
def handle_packetH (H : String → String) (cfg : HubConfig) (st : HubSt)
    (host : String) (port : Nat) (packet : String) (now : Nat) :
    List LogRec × HubSt × Option String :=
  match lookupSec cfg.servers host with
  | some (_, sec) =>
    let r := handle_userinfoH H sec cfg.tell st.players host port packet now
    (((LogLevel.debug, "processing server packet from " ++ host ++ ":" ++ toString port) : LogRec) :: r.1,
     { st with players := r.2.1.1, sent := st.sent ++ r.2.1.2 }, r.2.2)
  | none =>
    match lookupSec cfg.listen host with
    | some (_, sec) =>
      let r := handle_gossipH H sec st.gossips host port packet now
      (((LogLevel.debug, "processing listen packet from " ++ host ++ ":" ++ toString port) : LogRec) :: r.1,
       { st with gossips := r.2.1 }, r.2.2)
    | none =>
      ([(LogLevel.debug, "ignored spurious packet from " ++ host ++ ":" ++ toString port)],
       st, none)

/-- The handle_userinfo function with the md4 hexdigest of the code. -/
def handle_userinfo (secret : String) (tell : List (String × String))
    (db : List PlayerRow) (host : String) (port : Nat) (data : String)
    (now : Nat) : List LogRec × (List PlayerRow × List String) × Option String :=
  handle_userinfoH md4hex secret tell db host port data now

/-- The handle_gossip function with the md4 hexdigest of the code. -/
def handle_gossip (secret : String) (db : List GossipRow) (host : String)
    (port : Nat) (data : String) (now : Nat) :
    List LogRec × List GossipRow × Option String :=
  handle_gossipH md4hex secret db host port data now

/-- The handle_packet function with the md4 hexdigest of the code. -/
def handle_packet (cfg : HubConfig) (st : HubSt) (host : String) (port : Nat)
    (packet : String) (now : Nat) : List LogRec × HubSt × Option String :=
  handle_packetH md4hex cfg st host port packet now

/-- The task the dispatch loop submits to the pool for one datagram:
handle_packet with the received packet and sender, closing over the
thread-local state; handle_packet is a plain Python function, so
inspect.getargspec accepts it. -/
def packetTask (cfg : HubConfig) (host : String) (port : Nat)
    (packet : String) (now : Nat) : WTask HubSt :=
  ⟨"handle_packet", true, fun st => handle_packet cfg st host port packet now⟩

end Hub

namespace Failover

/-- The handle_hub function with the md4 hexdigest of the code. -/
def handle_hub (secret : String) (db : List FRow) (data : String) :
    List LogRec × List FRow × Option String :=
  handle_hubH md4hex secret db data

end Failover

/-- Concrete failing task used to witness the pool theorems. -/
def wtBoom : WTask Nat := ⟨"boom", true, fun n => ([], n + 1, some "RuntimeError")⟩

/-- Reference description of the last occurrence of a key in the pair list
of a payload. -/
def lastOccurrence (pairs : List (String × String)) (k : String) : Option String :=
  ((pairs.reverse).find? (fun p => p.1 = k)).map Prod.snd

/-- Decidable equality of Except results, used to evaluate the embedded
functions at concrete inputs. -/
instance exceptDecEq {ε α : Type} [DecidableEq ε] [DecidableEq α] :
    DecidableEq (Except ε α) := fun x y =>
  match x, y with
  | Except.ok a, Except.ok b =>
    if h : a = b then isTrue (by rw [h])
    else isFalse (fun hc => by cases hc; exact h rfl)
  | Except.ok _, Except.error _ => isFalse (fun hc => by cases hc)
  | Except.error _, Except.ok _ => isFalse (fun hc => by cases hc)
  | Except.error a, Except.error b =>
    if h : a = b then isTrue (by rw [h])
    else isFalse (fun hc => by cases hc; exact h rfl)

/-- Replace the character at a position of a byte string (flip one byte). -/
def setChar (s : String) (i : Nat) (c : Char) : String :=
  String.mk (s.data.set i c)

/-- Concrete failover store holding one pending entry whose rowid has two
digits. -/
def fdbTen : List FRow := [⟨10, "1.2.3.4", 27967, "rawpacket", "2026-01-01 00:00:00"⟩]

/-- Concrete failover store holding one pending entry with a one-digit
rowid. -/
def fdbSeven : List FRow := [⟨7, "1.2.3.4", 27967, "rawpacket", "2026-01-01 00:00:00"⟩]

/-- A correctly authenticated acknowledgment packet for a secret and a
rowid text, exactly as a peer hub would reply it. -/
def ackPacket (secret rid : String) : String :=
  authenticate secret ("got failover player\n" ++ rid) ++ "\n" ++
    "got failover player\n" ++ rid

/-! ## Basic facts about the string model -/

theorem string_mk_data (s : String) : String.mk s.data = s := rfl

theorem string_data_append (a b : String) : (a ++ b).data = a.data ++ b.data := by
  cases a
  cases b
  rfl

theorem string_length_mk (l : List Char) : (String.mk l).length = l.length := rfl

theorem splitOnceList_of_append {c : Char} {a b : List Char} (h : c ∉ a) :
    splitOnceList c (a ++ c :: b) = some (a, b) := by
  induction a with
  | nil => simp [splitOnceList]
  | cons x xs ih =>
    have hx : x ≠ c := fun he => h (he ▸ List.mem_cons_self x xs)
    have hxs : c ∉ xs := fun hm => h (List.mem_cons_of_mem x hm)
    simp [splitOnceList, hx, ih hxs]

theorem pySplitOnce_of_append {c : Char} {a b : String} (h : c ∉ a.data) :
    pySplitOnce c (a ++ String.mk (c :: b.data)) = some (a, b) := by
  unfold pySplitOnce
  rw [string_data_append]
  show (splitOnceList c (a.data ++ c :: b.data)).map _ = _
  rw [splitOnceList_of_append h]
  simp

theorem strTake_append_left {a b : String} (h : a.data.length = 4) :
    strTake 4 (a ++ b) = a := by
  unfold strTake
  rw [string_data_append, ← h, List.take_left, string_mk_data]

theorem strDrop_append_left {a b : String} (h : a.data.length = 4) :
    strDrop 4 (a ++ b) = b := by
  unfold strDrop
  rw [string_data_append, ← h, List.drop_left, string_mk_data]

/-! ## Facts about the digest: fixed 32-character hex tokens -/

theorem hexOfBytes_length (bs : List Nat) :
    (hexOfBytes bs).length = 2 * bs.length := by
  induction bs with
  | nil => rfl
  | cons b bs ih => simp [hexOfBytes, ih]; omega

theorem md4Bytes_length (m : List Nat) : (md4Bytes m).length = 16 := by
  simp [md4Bytes, wordLE]

theorem md4hex_length (s : String) : (md4hex s).length = 32 := by
  unfold md4hex
  rw [string_length_mk, hexOfBytes_length, md4Bytes_length]

theorem hexDigitChar_ne_newline {n : Nat} (h : n < 16) :
    hexDigitChar n ≠ Char.ofNat 10 := by
  interval_cases n <;> decide

theorem newline_not_mem_hexOfBytes (bs : List Nat) :
    Char.ofNat 10 ∉ hexOfBytes bs := by
  induction bs with
  | nil => simp [hexOfBytes]
  | cons b bs ih =>
    simp only [hexOfBytes, List.mem_cons]
    push_neg
    refine ⟨?_, ?_, ih⟩
    · exact fun he => hexDigitChar_ne_newline (Nat.mod_lt _ (by omega)) he.symm
    · exact fun he => hexDigitChar_ne_newline (Nat.mod_lt _ (by omega)) he.symm

theorem newline_not_mem_md4hex (s : String) : Char.ofNat 10 ∉ (md4hex s).data := by
  unfold md4hex
  exact newline_not_mem_hexOfBytes _

/-! ## Claim C5: task failures are caught, logged, and the worker continues -/

/-- Claim C5: for every task submitted to the pool, if calling the task
function raises an error, the private run-task method catches it, logs it
at error severity together with the identity of the function, and returns
normally (nothing propagates to the submitting Dispatcher); the worker
loop then continues with the remaining queue exactly as a fresh worker
would, so the worker never exits. -/
theorem task_error_caught_worker_continues :
    ∀ (σ : Type) (t : WTask σ) (st st2 : σ) (logs : List LogRec) (msg : String)
      (ts : List (WTask σ)),
    t.introspectable = true →
    t.run st = (logs, st2, some msg) →
    runTask t st = (logs ++ [(LogLevel.error, poolCatchMsg msg t.name)], st2, none) ∧
    runWorker st (t :: ts) =
      (logs ++ [(LogLevel.error, poolCatchMsg msg t.name)] ++ (runWorker st2 ts).1,
       (runWorker st2 ts).2.1, (runWorker st2 ts).2.2) := by
  intro σ t st st2 logs msg ts h1 h2
  have hr : runTask t st =
      (logs ++ [(LogLevel.error, poolCatchMsg msg t.name)], st2, none) := by
    simp [runTask, h1, h2]
  refine ⟨hr, ?_⟩
  simp [runWorker, hr]

/-- Witness for C5 at a concrete failing task. -/
theorem task_error_caught_worker_continues_witness :
    runTask wtBoom 0 = ([(LogLevel.error, poolCatchMsg "RuntimeError" "boom")], 1, none) ∧
    runWorker 0 [wtBoom] = ([(LogLevel.error, poolCatchMsg "RuntimeError" "boom")], 1, []) := by
  have h := task_error_caught_worker_continues Nat wtBoom 0 1 [] "RuntimeError" [] rfl rfl
  refine ⟨by simpa using h.1, by simpa [runWorker] using h.2⟩

/-! ## Claim C6: bounded queue submission, explicit backpressure -/

/-- Claim C6: with the queue at its bound, add raises (Full, after waiting
at most the configured timeout, 32 seconds by default); below the bound it
enqueues the task; every successful call keeps the queue within its bound
and actually contains the submitted task, so no task is silently
discarded; the default bound is 16 tasks. -/
theorem add_bounded_backpressure :
    ∀ (τ : Type) (p : ThreadPool τ) (t : τ),
    p.queue.length ≤ p.max_tasks →
    (p.queue.length = p.max_tasks → p.add t = Except.error "Full") ∧
    (p.queue.length < p.max_tasks →
      p.add t = Except.ok { p with queue := p.queue ++ [t] }) ∧
    (∀ p2, p.add t = Except.ok p2 →
      p2.queue.length ≤ p2.max_tasks ∧ t ∈ p2.queue ∧
      p2.queue.length = p.queue.length + 1) ∧
    poolDefaultMaxTasks = 16 ∧ poolDefaultTimeout = 32 := by
  intro τ p t hle
  refine ⟨?_, ?_, ?_, rfl, rfl⟩
  · intro he
    simp [ThreadPool.add, he]
  · intro hlt
    simp [ThreadPool.add, hlt]
  · intro p2 hok
    unfold ThreadPool.add at hok
    split at hok
    · next hlt =>
      cases hok
      refine ⟨by simpa using hlt, ?_, by simp⟩
      simp
    · exact absurd hok (by simp)

/-- Witness for C6: a full queue rejects, a non-full queue enqueues. -/
theorem add_bounded_backpressure_witness :
    ThreadPool.add ⟨2, 32, [0, 1]⟩ (5 : Nat) = Except.error "Full" ∧
    ThreadPool.add ⟨2, 32, [0]⟩ (5 : Nat) = Except.ok ⟨2, 32, [0, 5]⟩ := by
  refine ⟨(add_bounded_backpressure Nat ⟨2, 32, [0, 1]⟩ 5 (by decide)).1 rfl, ?_⟩
  have h := (add_bounded_backpressure Nat ⟨2, 32, [0]⟩ 5 (by decide)).2.1 (by decide)
  simpa using h

/-! ## Claims C3 and C9: the upsert on the record store -/

theorem map_ite_all_false {α : Type} (P : α → Bool) (g : α → α) :
    ∀ l : List α, (∀ r ∈ l, P r = false) →
    l.map (fun r => if P r then g r else r) = l := by
  intro l h
  induction l with
  | nil => rfl
  | cons x xs ih =>
    have hx := h x (List.mem_cons_self x xs)
    rw [List.map_cons, ih (fun r hr => h r (List.mem_cons_of_mem x hr))]
    simp [hx]

theorem map_congr_mem {α β : Type} (f g : α → β) :
    ∀ l : List α, (∀ a ∈ l, f a = g a) → l.map f = l.map g := by
  intro l h
  induction l with
  | nil => rfl
  | cons x xs ih =>
    simp only [List.map_cons, h x (List.mem_cons_self x xs)]
    rw [ih (fun r hr => h r (List.mem_cons_of_mem x hr))]

theorem playerRow_guid_of_keyMatch {r : PlayerRow} {name ip guid server : String}
    {port : Nat} (h : r.keyMatch name ip guid server port = true) : r.guid = guid := by
  simp [PlayerRow.keyMatch] at h
  tauto

theorem gossipRow_guid_of_keyMatch {r : GossipRow}
    {name ip guid server port origin : String}
    (h : r.keyMatch name ip guid server port origin = true) : r.guid = guid := by
  simp [GossipRow.keyMatch] at h
  tauto

/-- Claim C3: starting from a table with no row for the natural key,
writing the same sighting twice (clock values t1 then t2, t1 at most t2)
inserts exactly one row on the first call (first = last = t1) and only
refreshes the mutable fields on the second (last = t2 and, for gossip, the
count reaching 2): the final table is the original one plus that single
row, and exactly one row matches the key.  Holds for write_player and
analogously for write_gossip. -/
theorem upsert_idempotent_single_row :
    ∀ (pdb : List PlayerRow) (gdb : List GossipRow)
      (name ip guid server sport origin : String) (port : Nat) (t1 t2 : Nat),
    pdb.any (fun r => r.keyMatch name ip guid server port) = false →
    gdb.any (fun r => r.keyMatch name ip guid server sport origin) = false →
    t1 ≤ t2 →
    (Hub.write_player (Hub.write_player pdb name ip guid server port t1).2
        name ip guid server port t2).2
      = pdb ++ [⟨name, ip, guid, server, port, t1, t2⟩] ∧
    (((Hub.write_player (Hub.write_player pdb name ip guid server port t1).2
        name ip guid server port t2).2).filter
          (fun r => r.keyMatch name ip guid server port)).length = 1 ∧
    (Hub.write_gossip (Hub.write_gossip gdb name ip guid server sport origin t1).2
        name ip guid server sport origin t2).2
      = gdb ++ [⟨name, ip, guid, server, sport, origin, t1, t2, 2⟩] ∧
    (((Hub.write_gossip (Hub.write_gossip gdb name ip guid server sport origin t1).2
        name ip guid server sport origin t2).2).filter
          (fun r => r.keyMatch name ip guid server sport origin)).length = 1 := by
  intro pdb gdb name ip guid server sport origin port t1 t2 hp hg _
  have hallp : ∀ r ∈ pdb, r.keyMatch name ip guid server port = false := by
    simp only [List.any_eq_false] at hp
    exact fun r hr => Bool.eq_false_iff.mpr (hp r hr)
  have hallg : ∀ r ∈ gdb, r.keyMatch name ip guid server sport origin = false := by
    simp only [List.any_eq_false] at hg
    exact fun r hr => Bool.eq_false_iff.mpr (hg r hr)
  have hrow1 : (Hub.write_player pdb name ip guid server port t1).2
      = pdb ++ [⟨name, ip, guid, server, port, t1, t1⟩] := by
    simp [Hub.write_player, hp]
  have hrowmatch :
      (⟨name, ip, guid, server, port, t1, t1⟩ : PlayerRow).keyMatch
        name ip guid server port = true := by
    simp [PlayerRow.keyMatch]
  have hany2 : (pdb ++ [(⟨name, ip, guid, server, port, t1, t1⟩ : PlayerRow)]).any
      (fun r => r.keyMatch name ip guid server port) = true := by
    simp [List.any_append, hrowmatch]
  have hplayer : (Hub.write_player (Hub.write_player pdb name ip guid server port t1).2
      name ip guid server port t2).2
      = pdb ++ [⟨name, ip, guid, server, port, t1, t2⟩] := by
    rw [hrow1]
    simp only [Hub.write_player, hany2, if_true]
    rw [List.map_append, map_ite_all_false _ _ pdb hallp]
    simp [hrowmatch]
  have hgrow1 : (Hub.write_gossip gdb name ip guid server sport origin t1).2
      = gdb ++ [⟨name, ip, guid, server, sport, origin, t1, t1, 1⟩] := by
    simp [Hub.write_gossip, hg]
  have hgrowmatch :
      (⟨name, ip, guid, server, sport, origin, t1, t1, 1⟩ : GossipRow).keyMatch
        name ip guid server sport origin = true := by
    simp [GossipRow.keyMatch]
  have hgany2 : (gdb ++ [(⟨name, ip, guid, server, sport, origin, t1, t1, 1⟩ : GossipRow)]).any
      (fun r => r.keyMatch name ip guid server sport origin) = true := by
    simp [List.any_append, hgrowmatch]
  have hgossip : (Hub.write_gossip (Hub.write_gossip gdb name ip guid server sport origin t1).2
      name ip guid server sport origin t2).2
      = gdb ++ [⟨name, ip, guid, server, sport, origin, t1, t2, 2⟩] := by
    rw [hgrow1]
    simp only [Hub.write_gossip, hgany2, if_true]
    rw [List.map_append, map_ite_all_false _ _ gdb hallg]
    simp [hgrowmatch]
  have hrowmatch2 :
      (⟨name, ip, guid, server, port, t1, t2⟩ : PlayerRow).keyMatch
        name ip guid server port = true := by
    simp [PlayerRow.keyMatch]
  have hgrowmatch2 :
      (⟨name, ip, guid, server, sport, origin, t1, t2, 2⟩ : GossipRow).keyMatch
        name ip guid server sport origin = true := by
    simp [GossipRow.keyMatch]
  refine ⟨hplayer, ?_, hgossip, ?_⟩
  · rw [hplayer, List.filter_append]
    have h1 : pdb.filter (fun r => r.keyMatch name ip guid server port) = [] := by
      simp only [List.filter_eq_nil_iff]
      intro r hr
      simp [hallp r hr]
    rw [h1]
    simp [List.filter, hrowmatch2]
  · rw [hgossip, List.filter_append]
    have h1 : gdb.filter (fun r => r.keyMatch name ip guid server sport origin) = [] := by
      simp only [List.filter_eq_nil_iff]
      intro r hr
      simp [hallg r hr]
    rw [h1]
    simp [List.filter, hgrowmatch2]

/-- Witness for C3 at a concrete sighting written twice. -/
theorem upsert_idempotent_single_row_witness :
    (Hub.write_player (Hub.write_player [] "N" "1.2.3.4" "G" "2.2.2.2" 27960 5).2
        "N" "1.2.3.4" "G" "2.2.2.2" 27960 9).2
      = [⟨"N", "1.2.3.4", "G", "2.2.2.2", 27960, 5, 9⟩] ∧
    (Hub.write_gossip (Hub.write_gossip [] "N" "1.2.3.4" "G" "2.2.2.2" "27960" "3.3.3.3:9" 5).2
        "N" "1.2.3.4" "G" "2.2.2.2" "27960" "3.3.3.3:9" 9).2
      = [⟨"N", "1.2.3.4", "G", "2.2.2.2", "27960", "3.3.3.3:9", 5, 9, 2⟩] := by
  have h := upsert_idempotent_single_row [] [] "N" "1.2.3.4" "G" "2.2.2.2"
    "27960" "3.3.3.3:9" 27960 5 9 rfl rfl (by omega)
  exact ⟨by simpa using h.1, by simpa using h.2.2.1⟩

/-- Claim C9: when a row for the natural key exists, write_player issues an
UPDATE whose SET writes guid with the very value the WHERE clause matched,
so the table is exactly the original with the matching rows changed only
in last (write_gossip additionally increments count); in particular
non-matching rows are untouched and the row count is unchanged. -/
theorem update_frame_effect :
    ∀ (pdb : List PlayerRow) (gdb : List GossipRow)
      (name ip guid server sport origin : String) (port now : Nat),
    pdb.any (fun r => r.keyMatch name ip guid server port) = true →
    gdb.any (fun r => r.keyMatch name ip guid server sport origin) = true →
    (Hub.write_player pdb name ip guid server port now).2
      = pdb.map (fun r => if r.keyMatch name ip guid server port
          then { r with last := now } else r) ∧
    (Hub.write_player pdb name ip guid server port now).2.length = pdb.length ∧
    (Hub.write_gossip gdb name ip guid server sport origin now).2
      = gdb.map (fun r => if r.keyMatch name ip guid server sport origin
          then { r with last := now, cnt := r.cnt + 1 } else r) ∧
    (Hub.write_gossip gdb name ip guid server sport origin now).2.length = gdb.length := by
  intro pdb gdb name ip guid server sport origin port now hp hg
  have hpmap : (Hub.write_player pdb name ip guid server port now).2
      = pdb.map (fun r => if r.keyMatch name ip guid server port
          then { r with last := now } else r) := by
    simp only [Hub.write_player, hp, if_true]
    apply map_congr_mem
    intro r _
    by_cases hm : r.keyMatch name ip guid server port = true
    · simp only [hm, if_true]
      have hguid := playerRow_guid_of_keyMatch hm
      rw [← hguid]
    · simp only [hm, if_false, Bool.false_eq_true]
  have hgmap : (Hub.write_gossip gdb name ip guid server sport origin now).2
      = gdb.map (fun r => if r.keyMatch name ip guid server sport origin
          then { r with last := now, cnt := r.cnt + 1 } else r) := by
    simp only [Hub.write_gossip, hg, if_true]
    apply map_congr_mem
    intro r _
    by_cases hm : r.keyMatch name ip guid server sport origin = true
    · simp only [hm, if_true]
      have hguid := gossipRow_guid_of_keyMatch hm
      rw [← hguid]
    · simp only [hm, if_false, Bool.false_eq_true]
  exact ⟨hpmap, by rw [hpmap, List.length_map], hgmap, by rw [hgmap, List.length_map]⟩

/-- Witness for C9 on a two-row table with one matching row. -/
theorem update_frame_effect_witness :
    (Hub.write_player [⟨"N", "i", "G", "s", 1, 2, 3⟩, ⟨"M", "i", "G", "s", 1, 2, 3⟩]
        "N" "i" "G" "s" 1 7).2
      = [⟨"N", "i", "G", "s", 1, 2, 7⟩, ⟨"M", "i", "G", "s", 1, 2, 3⟩] ∧
    (Hub.write_gossip [⟨"N", "i", "G", "s", "1", "o", 2, 3, 4⟩]
        "N" "i" "G" "s" "1" "o" 7).2
      = [⟨"N", "i", "G", "s", "1", "o", 2, 7, 5⟩] := by
  have h := update_frame_effect
    [⟨"N", "i", "G", "s", 1, 2, 3⟩, ⟨"M", "i", "G", "s", 1, 2, 3⟩]
    [⟨"N", "i", "G", "s", "1", "o", 2, 3, 4⟩]
    "N" "i" "G" "s" "1" "o" 1 7 (by decide) (by decide)
  exact ⟨by rw [h.1]; decide, by rw [h.2.2.1]; decide⟩

/-! ## Claim C10: duplicate keys in a payload, last occurrence wins -/

theorem find?_append_single {α : Type} (P : α → Bool) (x : α) :
    ∀ d : List α, List.find? P (d ++ [x]) =
      match List.find? P d with
      | some r => some r
      | none => List.find? P [x] := by
  intro d
  induction d with
  | nil => simp
  | cons a l ih =>
    by_cases h : P a = true
    · simp [List.find?, h]
    · have h2 : P a = false := Bool.eq_false_iff.mpr h
      simp [List.find?, h2, ih]

theorem find?_map_replace {d : List (String × String)} {k q : String} (v : String)
    (h : q ≠ k) :
    List.find? (fun p => p.1 = q)
        (d.map (fun p => if p.1 = k then (k, v) else p))
      = List.find? (fun p => p.1 = q) d := by
  induction d with
  | nil => rfl
  | cons a l ih =>
    by_cases hak : a.1 = k
    · have hkq : ¬ k = q := fun he => h he.symm
      have haq : ¬ a.1 = q := fun he => h ((hak.symm.trans he).symm)
      simp [List.find?, hak, hkq, haq, ih]
    · by_cases haq : a.1 = q
      · simp [List.find?, hak, haq, h]
      · simp [List.find?, hak, haq, ih]

theorem find?_map_replace_self {d : List (String × String)} {k : String} (v : String)
    (h : d.any (fun p => p.1 = k) = true) :
    List.find? (fun p => p.1 = k)
        (d.map (fun p => if p.1 = k then (k, v) else p))
      = some (k, v) := by
  induction d with
  | nil => simp at h
  | cons a l ih =>
    by_cases hak : a.1 = k
    · simp [List.find?, hak]
    · have h2 : l.any (fun p => p.1 = k) = true := by
        simp [List.any_cons, hak] at h
        simpa using h
      simp [List.find?, hak, ih h2]

theorem find?_none_of_any_false {d : List (String × String)} {k : String}
    (h : d.any (fun p => p.1 = k) = false) :
    List.find? (fun p => p.1 = k) d = none := by
  apply List.find?_eq_none.mpr
  intro x hx
  have := (List.any_eq_false.mp h) x hx
  simpa using this

theorem dictGet_pyDictInsert (d : List (String × String)) (k v q : String) :
    dictGet (pyDictInsert d k v) q = if q = k then some v else dictGet d q := by
  unfold pyDictInsert dictGet
  by_cases hany : d.any (fun p => p.1 = k) = true
  · simp only [hany, if_true]
    by_cases hq : q = k
    · subst hq
      rw [find?_map_replace_self v hany]
      simp
    · rw [find?_map_replace v hq]
      simp [hq]
  · have hany2 : d.any (fun p => p.1 = k) = false := Bool.eq_false_iff.mpr hany
    simp only [hany2, Bool.false_eq_true, if_false]
    rw [find?_append_single]
    by_cases hq : q = k
    · subst hq
      rw [find?_none_of_any_false hany2]
      simp [List.find?]
    · have hkq : ¬ k = q := fun he => hq he.symm
      cases hf : List.find? (fun p => p.1 = q) d
      · simp [List.find?, hkq, hq]
      · simp [hq]

theorem pyDict_snoc (ps : List (String × String)) (p : String × String) :
    pyDict (ps ++ [p]) = pyDictInsert (pyDict ps) p.1 p.2 := by
  simp [pyDict, List.foldl_append]

theorem lastOccurrence_snoc (ps : List (String × String)) (p : String × String)
    (k : String) :
    lastOccurrence (ps ++ [p]) k
      = if p.1 = k then some p.2 else lastOccurrence ps k := by
  unfold lastOccurrence
  rw [List.reverse_append]
  by_cases h : p.1 = k
  · simp [List.find?, h]
  · have h2 : (p.1 = k) = False := by simp [h]
    simp [List.find?, h2]

theorem dictGet_pyDict (pairs : List (String × String)) (k : String) :
    dictGet (pyDict pairs) k = lastOccurrence pairs k := by
  induction pairs using List.reverseRecOn with
  | nil => rfl
  | append_singleton ps p ih =>
    rw [pyDict_snoc, dictGet_pyDictInsert, lastOccurrence_snoc]
    by_cases h : p.1 = k
    · simp [h]
    · have h2 : k ≠ p.1 := fun he => h he.symm
      simp [h, h2, ih]

/-- Claim C10: when parse_userinfo accepts a payload in which some key
occurs more than once among the decoded pairs, the returned mapping binds
that key to the value of its last occurrence (earlier occurrences are
silently discarded, not rejected), and the key is genuinely bound. -/
theorem duplicate_key_last_occurrence_wins :
    ∀ (payload : String) (d : List (String × String)) (k : String),
    Hub.parse_userinfo payload = Except.ok d →
    2 ≤ (((evenSlice ((pySplit '\\' payload).drop 1)).zip
          (oddSlice ((pySplit '\\' payload).drop 1))).filter
            (fun p => p.1 = k)).length →
    dictGet d k = lastOccurrence
        ((evenSlice ((pySplit '\\' payload).drop 1)).zip
          (oddSlice ((pySplit '\\' payload).drop 1))) k ∧
    ∃ v, dictGet d k = some v := by
  intro payload d k hok hdup
  have hd : d = pyDict ((evenSlice ((pySplit '\\' payload).drop 1)).zip
      (oddSlice ((pySplit '\\' payload).drop 1))) := by
    simp only [Hub.parse_userinfo] at hok
    split at hok
    · cases hok
      rfl
    · cases hok
  subst hd
  set pairs := (evenSlice ((pySplit '\\' payload).drop 1)).zip
      (oddSlice ((pySplit '\\' payload).drop 1)) with hpairs
  refine ⟨dictGet_pyDict pairs k, ?_⟩
  rw [dictGet_pyDict pairs k]
  have hne : pairs.filter (fun p => p.1 = k) ≠ [] := by
    intro he
    rw [he] at hdup
    simp at hdup
  have hmem : ∃ p ∈ pairs, (fun p => decide (p.1 = k)) p = true := by
    rcases List.exists_mem_of_ne_nil _ hne with ⟨p, hp⟩
    exact ⟨p, (List.mem_filter.mp hp).1, (List.mem_filter.mp hp).2⟩
  rcases hmem with ⟨p, hp, hpk⟩
  have : ((pairs.reverse).find? (fun p => p.1 = k)).isSome := by
    apply List.find?_isSome.mpr
    exact ⟨p, List.mem_reverse.mpr hp, hpk⟩
  rcases Option.isSome_iff_exists.mp this with ⟨r, hr⟩
  exact ⟨r.2, by unfold lastOccurrence; rw [hr]; rfl⟩

/-- Witness for C10: in the payload the key a occurs twice, bound to 1 and
then to 3; the parsed mapping returns 3. -/
theorem duplicate_key_last_occurrence_wins_witness :
    dictGet [("a", "3"), ("b", "2")] "a" = some "3" := by
  have h := duplicate_key_last_occurrence_wins "\\a\\1\\b\\2\\a\\3"
    [("a", "3"), ("b", "2")] "a" (by decide) (by decide)
  exact h.1.trans (by decide)

/-! ## Claim C7: resolution failure handling in the two modes -/

theorem hub_resolveLoop_keeps_acc (dns : String → Option String) :
    ∀ (l acc : List CfgEntry) (res : List CfgEntry),
    (Hub.resolveLoop dns acc l).2 = Except.ok res →
    ∀ x ∈ acc, x ∈ res := by
  intro l
  induction l with
  | nil =>
    intro acc res h x hx
    simp [Hub.resolveLoop] at h
    rw [← h]
    exact hx
  | cons e rest ih =>
    intro acc res h x hx
    obtain ⟨server, v⟩ := e
    simp only [Hub.resolveLoop] at h
    cases hdns : dns server with
    | none =>
      rw [hdns] at h
      by_cases hdup : acc.any (fun p => p.1 = server) = true
      · simp [hdup] at h
      · simp [hdup] at h
        exact ih (acc ++ [(server, v)]) res h x (List.mem_append_left _ hx)
    | some ip =>
      rw [hdns] at h
      by_cases hip : ip = server
      · subst hip
        by_cases hdup : acc.any (fun p => p.1 = ip) = true
        · simp [hdup] at h
        · simp [hdup] at h
          exact ih (acc ++ [(ip, v)]) res h x (List.mem_append_left _ hx)
      · by_cases hdup : acc.any (fun p => p.1 = ip) = true
        · simp [hip, hdup] at h
        · simp [hip, hdup] at h
          exact ih (acc ++ [(ip, v)]) res h x (List.mem_append_left _ hx)

theorem hub_resolveLoop_error_is_assert (dns : String → Option String) :
    ∀ (l acc : List CfgEntry) (e : String),
    (Hub.resolveLoop dns acc l).2 = Except.error e →
    e = "AssertionError" := by
  intro l
  induction l with
  | nil =>
    intro acc e h
    simp [Hub.resolveLoop] at h
  | cons ent rest ih =>
    intro acc e h
    obtain ⟨server, v⟩ := ent
    simp only [Hub.resolveLoop] at h
    cases hdns : dns server with
    | none =>
      rw [hdns] at h
      by_cases hdup : acc.any (fun p => p.1 = server) = true
      · simp [hdup] at h
        exact h.symm
      · simp [hdup] at h
        exact ih (acc ++ [(server, v)]) e h
    | some ip =>
      rw [hdns] at h
      by_cases hip : ip = server
      · subst hip
        by_cases hdup : acc.any (fun p => p.1 = ip) = true
        · simp [hdup] at h
          exact h.symm
        · simp [hdup] at h
          exact ih (acc ++ [(ip, v)]) e h
      · by_cases hdup : acc.any (fun p => p.1 = ip) = true
        · simp [hip, hdup] at h
          exact h.symm
        · simp [hip, hdup] at h
          exact ih (acc ++ [(ip, v)]) e h

theorem hub_resolveLoop_keeps_failed (dns : String → Option String) :
    ∀ (l acc : List CfgEntry) (res : List CfgEntry) (server : String)
      (v : Nat × String),
    (server, v) ∈ l → dns server = none →
    (Hub.resolveLoop dns acc l).2 = Except.ok res →
    (server, v) ∈ res ∧
    (LogLevel.error, "failed to resolve " ++ server ++ " because of gaierror")
      ∈ (Hub.resolveLoop dns acc l).1 := by
  intro l
  induction l with
  | nil =>
    intro acc res server v hmem
    exact absurd hmem (List.not_mem_nil _)
  | cons ent rest ih =>
    intro acc res server v hmem hdns h
    obtain ⟨s0, v0⟩ := ent
    rcases List.mem_cons.mp hmem with hhead | htail
    · injection hhead with hs hv
      subst hs
      subst hv
      simp only [Hub.resolveLoop] at h ⊢
      rw [hdns] at h ⊢
      by_cases hdup : acc.any (fun p => p.1 = server) = true
      · simp [hdup] at h
      · simp only [hdup, Bool.false_eq_true, if_false] at h ⊢
        refine ⟨hub_resolveLoop_keeps_acc dns rest _ res h (server, v)
          (List.mem_append_right _ (List.mem_singleton.mpr rfl)), ?_⟩
        simp
    · simp only [Hub.resolveLoop] at h ⊢
      cases hdns0 : dns s0 with
      | none =>
        rw [hdns0] at h
        by_cases hdup : acc.any (fun p => p.1 = s0) = true
        · simp [hdup] at h
        · simp [hdup] at h
          have hr := ih (acc ++ [(s0, v0)]) res server v htail hdns h
          refine ⟨hr.1, ?_⟩
          simp [hdup, hr.2]
      | some ip =>
        rw [hdns0] at h
        by_cases hip : ip = s0
        · subst hip
          by_cases hdup : acc.any (fun p => p.1 = ip) = true
          · simp [hdup] at h
          · simp [hdup] at h
            have hr := ih (acc ++ [(ip, v0)]) res server v htail hdns h
            refine ⟨hr.1, ?_⟩
            simp [hdup, hr.2]
        · by_cases hdup : acc.any (fun p => p.1 = ip) = true
          · simp [hip, hdup] at h
          · simp [hip, hdup] at h
            have hr := ih (acc ++ [(ip, v0)]) res server v htail hdns h
            refine ⟨hr.1, ?_⟩
            simp [hip, hdup, hr.2]

theorem failover_resolveLoop_aborts (dns : String → Option String) :
    ∀ (l acc : List CfgEntry),
    (∃ sv ∈ l, dns sv.1 = none) →
    ∃ e, (Failover.resolveLoop dns acc l).2 = Except.error e := by
  intro l
  induction l with
  | nil =>
    intro acc h
    rcases h with ⟨sv, hmem, _⟩
    exact absurd hmem (List.not_mem_nil _)
  | cons ent rest ih =>
    intro acc h
    obtain ⟨s0, v0⟩ := ent
    simp only [Failover.resolveLoop]
    cases hdns0 : dns s0 with
    | none => exact ⟨"gaierror", rfl⟩
    | some ip =>
      have htail : ∃ sv ∈ rest, dns sv.1 = none := by
        rcases h with ⟨sv, hmem, hsv⟩
        rcases List.mem_cons.mp hmem with hhead | ht
        · rw [hhead] at hsv
          simp at hsv
          rw [hsv] at hdns0
          cases hdns0
        · exact ⟨sv, ht, hsv⟩
      by_cases hip : ip = s0
      · subst hip
        by_cases hdup : acc.any (fun p => p.1 = ip) = true
        · exact ⟨"AssertionError", by simp [hdup]⟩
        · have hr := ih (acc ++ [(ip, v0)]) htail
          rcases hr with ⟨e, he⟩
          exact ⟨e, by simp [hdup, he]⟩
      · by_cases hdup : acc.any (fun p => p.1 = ip) = true
        · exact ⟨"AssertionError", by simp [hip, hdup]⟩
        · have hr := ih (acc ++ [(ip, v0)]) htail
          rcases hr with ⟨e, he⟩
          exact ⟨e, by simp [hip, hdup, he]⟩

/-- Claim C7 as amended: in the plain gossip mode (hub.py), a failed
host resolution is caught, logged (error severity, via the exception
logger) and the identifier itself is kept as the address, so resolution
failures never abort startup there — the only fatal error is the
duplicate-address assertion; in the failover mode (failover.py) the
lookup has no handler, so a section containing an unresolvable
identifier makes resolve_config raise and startup aborts. -/
theorem resolve_failure_nonfatal_in_hub_only :
    ∀ (dns : String → Option String) (sect : List CfgEntry) (server : String)
      (v : Nat × String) (res : List CfgEntry),
    (∀ e, (Hub.resolve_config dns sect).2 = Except.error e → e = "AssertionError") ∧
    ((server, v) ∈ sect → dns server = none →
      (Hub.resolve_config dns sect).2 = Except.ok res →
      (server, v) ∈ res ∧
      (LogLevel.error, "failed to resolve " ++ server ++ " because of gaierror")
        ∈ (Hub.resolve_config dns sect).1) ∧
    ((∃ sv ∈ sect, dns sv.1 = none) →
      ∃ e, (Failover.resolve_config dns sect).2 = Except.error e) := by
  intro dns sect server v res
  refine ⟨?_, ?_, ?_⟩
  · intro e he
    exact hub_resolveLoop_error_is_assert dns sect [] e he
  · intro hmem hdns hok
    exact hub_resolveLoop_keeps_failed dns sect [] res server v hmem hdns hok
  · intro hex
    exact failover_resolveLoop_aborts dns sect [] hex

/-- Witness for C7 at a one-entry section whose host does not resolve:
the hub keeps the identifier and logs the failure. -/
theorem resolve_failure_nonfatal_in_hub_only_witness :
    ("peer.example.org", (9534, "s")) ∈ [("peer.example.org", ((9534 : Nat), "s"))] ∧
    (LogLevel.error, "failed to resolve " ++ "peer.example.org" ++ " because of gaierror")
      ∈ (Hub.resolve_config (fun _ => none) [("peer.example.org", (9534, "s"))]).1 := by
  have h := (resolve_failure_nonfatal_in_hub_only (fun _ => none)
    [("peer.example.org", (9534, "s"))] "peer.example.org" (9534, "s")
    [("peer.example.org", (9534, "s"))]).2.1
    (by decide) rfl (by decide)
  exact ⟨h.1, h.2⟩

/-- Counterexample to C7 as stated: in the failover mode the same failed
resolution is not caught; resolve_config raises gaierror, which aborts
startup instead of keeping the identifier. -/
theorem resolve_failover_gaierror_aborts :
    (Failover.resolve_config (fun _ => none)
        [("peer.example.org", (9534, "s"))]).2 = Except.error "gaierror" := rfl

/-! ## Claim C4: token length and checksum rejection without store writes -/

/-- Claim C4: for a packet whose transmitted token is not exactly 32
characters long, or whose token differs from the keyed digest recomputed
over the configured secret and the message body, the gossip, failover-hub
and userinfo handlers all return with the record store untouched; and when
the length test fails, the handler result does not depend on the digest
function at all (the rejection happens before any digest is computed). -/
theorem invalid_token_rejected :
    ∀ (H H2 : String → String) (secret : String) (tell : List (String × String))
      (pdb : List PlayerRow) (gdb : List GossipRow) (fdb : List FRow)
      (host : String) (port : Nat) (data tok rest : String) (now : Nat),
    pySplitOnce '\n' data = some (tok, rest) →
    ((tok.length ≠ 32 ∨ tok ≠ H (secret ++ "\n" ++ rest)) →
      (Hub.handle_gossipH H secret gdb host port data now).2.1 = gdb ∧
      (Failover.handle_hubH H secret fdb data).2.1 = fdb ∧
      (Hub.handle_userinfoH H secret tell pdb host port (Hub.MARKER ++ data) now).2.1.1
        = pdb) ∧
    (tok.length ≠ 32 →
      Hub.handle_gossipH H secret gdb host port data now
        = Hub.handle_gossipH H2 secret gdb host port data now ∧
      Failover.handle_hubH H secret fdb data
        = Failover.handle_hubH H2 secret fdb data ∧
      Hub.handle_userinfoH H secret tell pdb host port (Hub.MARKER ++ data) now
        = Hub.handle_userinfoH H2 secret tell pdb host port (Hub.MARKER ++ data) now) := by
  intro H H2 secret tell pdb gdb fdb host port data tok rest now hsplit
  have h4 : (Hub.MARKER).data.length = 4 := rfl
  constructor
  · intro hbad
    refine ⟨?_, ?_, ?_⟩
    · unfold Hub.handle_gossipH
      rw [hsplit]
      rcases hbad with hlen | hne
      · simp [hlen]
      · by_cases hlen : tok.length = 32
        · simp [hlen, hne]
        · simp [hlen]
    · unfold Failover.handle_hubH
      rw [hsplit]
      rcases hbad with hlen | hne
      · simp [hlen]
      · by_cases hlen : tok.length = 32
        · simp [hlen, hne]
        · simp [hlen]
    · unfold Hub.handle_userinfoH
      simp only [strTake_append_left h4, strDrop_append_left h4, hsplit]
      rcases hbad with hlen | hne
      · simp [hlen]
      · by_cases hlen : tok.length = 32
        · simp [hlen, hne]
        · simp [hlen]
  · intro hlen
    refine ⟨?_, ?_, ?_⟩
    · unfold Hub.handle_gossipH
      rw [hsplit]
      simp [hlen]
    · unfold Failover.handle_hubH
      rw [hsplit]
      simp [hlen]
    · unfold Hub.handle_userinfoH
      simp only [strTake_append_left h4, strDrop_append_left h4, hsplit]
      simp [hlen]

/-- Witness for C4: a 3-character token is rejected by every handler with
the store unchanged and independently of the digest function, and a
32-character token that does not match the recomputed md4 digest is
rejected as well. -/
theorem invalid_token_rejected_witness :
    (Hub.handle_gossipH md4hex "k" [] "h" 1 "abc\nbody" 0).2.1 = ([] : List GossipRow) ∧
    (Failover.handle_hubH md4hex "k" [] "abc\nbody").2.1 = ([] : List FRow) ∧
    Hub.handle_gossipH md4hex "k" [] "h" 1 "abc\nbody" 0
      = Hub.handle_gossipH (fun _ => "") "k" [] "h" 1 "abc\nbody" 0 ∧
    (Hub.handle_gossipH md4hex "k" []
        "h" 1 "aaaaaaaaaaaaaaaaaaaaaaaaaaaaaaaa\nbody" 0).2.1 = ([] : List GossipRow) := by
  have h := invalid_token_rejected md4hex (fun _ => "") "k" [("p", "ps")] [] [] []
    "h" 1 "abc\nbody" "abc" "body" 0 (by decide)
  have h2 := invalid_token_rejected md4hex (fun _ => "") "k" [("p", "ps")] [] [] []
    "h" 1 "aaaaaaaaaaaaaaaaaaaaaaaaaaaaaaaa\nbody"
    "aaaaaaaaaaaaaaaaaaaaaaaaaaaaaaaa" "body" 0 (by decide)
  exact ⟨(h.1 (Or.inl (by decide))).1, (h.1 (Or.inl (by decide))).2.1,
    (h.2 (by decide)).1, (h2.1 (Or.inr (by decide))).1⟩

/-! ## Checksum round trip and token flips (claim C1 support)

The round trip and the token-flip half of the checksum property are
provable; the body-flip half is equivalent to the absence of single-byte
collisions in the keyed md4 digest and is neither provable nor refutable
here.
-/

/-- Verification of a token freshly produced by authentication succeeds,
for every secret and every body. -/
theorem verify_authenticate_roundtrip (secret body : String) :
    verify secret (authenticate secret body) body = true := by
  simp [verify, authenticate, md4hex_length]

/-- Changing any one character of the token to a different character makes
verification fail: the altered token still has length 32, but no longer
equals the recomputed digest. -/
theorem verify_flipped_token_false (secret body : String) (i : Nat) (c : Char)
    (hi : i < 32) (hc : (authenticate secret body).data.getD i c ≠ c) :
    verify secret (setChar (authenticate secret body) i c) body = false := by
  have hlen : (authenticate secret body).data.length = 32 := md4hex_length _
  have hne : setChar (authenticate secret body) i c ≠ authenticate secret body := by
    intro he
    have hdata : ((authenticate secret body).data.set i c)
        = (authenticate secret body).data := congrArg String.data he
    have : ((authenticate secret body).data.set i c).getD i c = c := by
      rw [List.getD_eq_getElem?_getD, List.getElem?_set_self]
      · simp
      · omega
    rw [hdata] at this
    exact hc this
  have hlen2 : (setChar (authenticate secret body) i c).length = 32 := by
    unfold setChar
    rw [string_length_mk, List.length_set]
    exact hlen
  simp [verify, hlen2, hne]

/-- Witness for the two provable halves: round trip at a concrete packet
and a concrete token flip rejected. -/
theorem verify_roundtrip_witness :
    verify "sec" (authenticate "sec" "gossip player\n\\name\\N") "gossip player\n\\name\\N" = true ∧
    verify "sec" (setChar (authenticate "sec" "gossip player\n\\name\\N") 0 'z')
      "gossip player\n\\name\\N" = false := by
  refine ⟨verify_authenticate_roundtrip "sec" "gossip player\n\\name\\N", ?_⟩
  exact verify_flipped_token_false "sec" "gossip player\n\\name\\N" 0 'z'
    (by omega) (by decide)

/-- Altering the body makes verification fail exactly when the altered
body hashes differently under the keyed digest; this is the precise
residue of the body-flip half of the checksum property. -/
theorem verify_modified_body_false (secret body body2 : String)
    (h : md4hex (secret ++ "\n" ++ body2) ≠ md4hex (secret ++ "\n" ++ body)) :
    verify secret (authenticate secret body) body2 = false := by
  have : authenticate secret body ≠ authenticate secret body2 := by
    intro he
    exact h (by rw [authenticate, authenticate] at he; exact he.symm ▸ rfl)
  simp [verify, this]

/-! ## Claim C2: the outbox acknowledgment and flush, evaluated -/

/-- Claim C2 evaluated on the code: with one pending entry of rowid 10, a
correctly authenticated got-failover-player acknowledgment for id 10 does
not delete the entry — del_db_entry passes the id string bare to execute,
which raises ProgrammingError for any id longer than one character — and
the flush sends nothing and raises TypeError, because get_db_entries
selects the quoted column names as string literals and percent-i
formatting of the literal string rejects it; the flush would even work
from constant strings only, as the third conjunct shows.  With a one-digit
rowid the acknowledgment does delete the entry, which is the intended
behaviour the claim describes. -/
theorem outbox_ack_failure_eval :
    Failover.handle_hub "youcantknow" fdbTen (ackPacket "youcantknow" "10")
      = ([], fdbTen, some "ProgrammingError") ∧
    Failover.flush_outbox md4hex [("5.6.7.8", "hubsecret")] fdbTen
      = ([], [], some "TypeError") ∧
    Failover.get_db_entries fdbTen
      = [[PyVal.str "rowid", PyVal.str "server", PyVal.str "port",
          PyVal.str "packet", PyVal.str "time"]] ∧
    Failover.handle_hub "youcantknow" fdbSeven (ackPacket "youcantknow" "7")
      = ([], [], none) := by
  exact ⟨by decide, by decide, by decide, by decide⟩

/-! ## Claim C8: odd pair count is dropped inside the worker pool -/

theorem newline_append (b : String) : "\n" ++ b = String.mk ('\n' :: b.data) := by
  cases b
  rfl

theorem userinfo_newline_append (b : String) :
    "userinfo\n" ++ b = "userinfo" ++ String.mk ('\n' :: b.data) := by
  cases b
  rfl

theorem newline_not_mem_md4hex_data (s : String) : '\n' ∉ (md4hex s).data := by
  have h := newline_not_mem_md4hex s
  have he : ('\n' : Char) = Char.ofNat 10 := by decide
  rw [he]
  exact h

/-- Claim C8 as amended: an authenticated, correctly framed userinfo
packet whose payload has an odd field count after the leading delimiter is
rejected by parse_userinfo (its assert raises AssertionError) and is
dropped inside the worker: the record store and the whole worker state are
unchanged, the pool catch logs the failure at error severity with the task
identity, and nothing propagates out of the worker (so the Dispatcher
never sees it and nothing is retried). -/
theorem odd_pair_count_dropped_in_pool :
    ∀ (cfg : Hub.HubConfig) (st : Hub.HubSt) (host : String) (port : Nat)
      (p : Nat) (secret payload : String) (now : Nat),
    lookupSec cfg.servers host = some (p, secret) →
    ((pySplit '\\' payload).drop 1).length % 2 = 1 →
    Hub.parse_userinfo payload = Except.error "AssertionError" ∧
    runTask (Hub.packetTask cfg host port
        (Hub.MARKER ++ (authenticate secret ("userinfo\n" ++ payload)
          ++ ("\n" ++ ("userinfo\n" ++ payload)))) now) st
      = ([(LogLevel.debug, "processing server packet from " ++ host ++ ":" ++ toString port),
          (LogLevel.error, poolCatchMsg "AssertionError" "handle_packet")], st, none) := by
  intro cfg st host port p secret payload now hlook hodd
  have h4 : (Hub.MARKER).data.length = 4 := rfl
  have hparse : Hub.parse_userinfo payload = Except.error "AssertionError" := by
    unfold Hub.parse_userinfo
    have hne : ¬ ((pySplit '\\' payload).drop 1).length % 2 = 0 := by omega
    simp [hne]
    simpa using hodd
  refine ⟨hparse, ?_⟩
  have hnl : '\n' ∉ (authenticate secret ("userinfo\n" ++ payload)).data :=
    newline_not_mem_md4hex_data (secret ++ "\n" ++ ("userinfo\n" ++ payload))
  have hsplit1 : pySplitOnce '\n'
      (authenticate secret ("userinfo\n" ++ payload)
        ++ ("\n" ++ ("userinfo\n" ++ payload)))
      = some (authenticate secret ("userinfo\n" ++ payload), "userinfo\n" ++ payload) := by
    rw [newline_append ("userinfo\n" ++ payload)]
    exact pySplitOnce_of_append hnl
  have hsplit2 : pySplitOnce '\n' ("userinfo\n" ++ payload)
      = some ("userinfo", payload) := by
    rw [userinfo_newline_append payload]
    exact pySplitOnce_of_append (by decide)
  obtain ⟨players, gossips, sent⟩ := st
  have huser : Hub.handle_userinfoH md4hex secret cfg.tell players host port
      (Hub.MARKER ++ (authenticate secret ("userinfo\n" ++ payload)
        ++ ("\n" ++ ("userinfo\n" ++ payload)))) now
      = ([], (players, []), some "AssertionError") := by
    unfold Hub.handle_userinfoH
    simp only [strTake_append_left h4, strDrop_append_left h4, hsplit1]
    simp [authenticate, md4hex_length, hsplit2, hparse]
  have hpkt : Hub.handle_packet cfg ⟨players, gossips, sent⟩ host port
      (Hub.MARKER ++ (authenticate secret ("userinfo\n" ++ payload)
        ++ ("\n" ++ ("userinfo\n" ++ payload)))) now
      = ([(LogLevel.debug, "processing server packet from " ++ host ++ ":" ++ toString port)],
         ⟨players, gossips, sent⟩, some "AssertionError") := by
    unfold Hub.handle_packet Hub.handle_packetH
    simp only [hlook]
    simp [huser]
  unfold runTask Hub.packetTask
  simp only [hpkt]
  simp

/-- Witness for C8: a three-field payload processed through the pool at a
configured sender; the store is untouched and the pool reports the
assertion at error severity. -/
theorem odd_pair_count_dropped_in_pool_witness :
    runTask (Hub.packetTask ⟨[("1.2.3.4", (27960, "k"))], [], []⟩ "1.2.3.4" 5
        (Hub.MARKER ++ (authenticate "k" ("userinfo\n" ++ "\\name\\foo\\ip")
          ++ ("\n" ++ ("userinfo\n" ++ "\\name\\foo\\ip")))) 0)
      ⟨[], [], []⟩
      = ([(LogLevel.debug, "processing server packet from " ++ "1.2.3.4" ++ ":" ++ toString 5),
          (LogLevel.error, poolCatchMsg "AssertionError" "handle_packet")],
         ⟨[], [], []⟩, none) := by
  exact (odd_pair_count_dropped_in_pool ⟨[("1.2.3.4", (27960, "k"))], [], []⟩
    ⟨[], [], []⟩ "1.2.3.4" 5 27960 "k" "\\name\\foo\\ip" 0 (by decide) (by decide)).2

/-- Counterexample to C8 as stated: processing the odd-count packet emits
exactly a routing debug record and the drop record from the worker pool
catch, and the drop record has error severity, not the debug severity the
claim asserts. -/
theorem odd_pair_count_error_severity :
    ((runTask (Hub.packetTask ⟨[("1.2.3.4", (27960, "k"))], [], []⟩ "1.2.3.4" 5
        (Hub.MARKER ++ (authenticate "k" ("userinfo\n" ++ "\\name\\foo\\ip")
          ++ ("\n" ++ ("userinfo\n" ++ "\\name\\foo\\ip")))) 0)
      ⟨[], [], []⟩).1.map Prod.fst
      = [LogLevel.debug, LogLevel.error]) ∧
    LogLevel.error ≠ LogLevel.debug := by
  exact ⟨by decide, by decide⟩
